import Mathlib

/-!
Verification of the policy-constrained patch applier in
`.github/workflows/ai-writer.py` (the "dash" variant) and
`.github/workflows/ai_writer.py` (the "underscore" variant).

The two scripts are shallowly embedded below.  Pure Python string
manipulation becomes functions on `List Char`; the external services
(the filesystem enumeration done by `glob.glob`, the size oracle
`stat().st_size`, the environment, the generation service) become
explicit function parameters; `sys.exit` and uncaught exceptions become
explicit outcome values.  The Python standard library's `json.loads` is
modelled by an executable strict JSON parser (`json_loads` below); the
model restricts JSON numbers to integers, which none of the verified
properties depend on.
-/

namespace AIWriter

/-- JSON values as produced by the model of `json.loads`.  Python dicts
become association lists with unique keys (insertion replaces). -/
inductive JValue : Type where
  | null : JValue
  | bool (b : Bool) : JValue
  | num (n : Int) : JValue
  | str (s : List Char) : JValue
  | arr (xs : List JValue) : JValue
  | obj (kvs : List (List Char × JValue)) : JValue

/-- Whitespace characters recognised by the JSON grammar and stripped by
Python's `str.strip` in the inputs we model. -/
def isWS (c : Char) : Bool :=
  c = ' ' || c = '\t' || c = '\n' || c = '\r'

/-- Drop leading JSON whitespace. -/
def skipWS (l : List Char) : List Char := l.dropWhile isWS

/-- Python `str.strip()`: remove whitespace from both ends. -/
def pystrip (l : List Char) : List Char :=
  ((l.dropWhile isWS).reverse.dropWhile isWS).reverse

/-- Insert a key into a Python-dict model: replace an existing binding,
otherwise append (later duplicate keys in a JSON object overwrite). -/
def dictInsert (kvs : List (List Char × JValue)) (k : List Char) (v : JValue) :
    List (List Char × JValue) :=
  if kvs.any (fun kv => kv.1 = k) then
    kvs.map (fun kv => if kv.1 = k then (k, v) else kv)
  else
    kvs ++ [(k, v)]

/-- Look a key up in a Python-dict model. -/
def dictGet (kvs : List (List Char × JValue)) (k : List Char) : Option JValue :=
  (kvs.find? (fun kv => kv.1 = k)).map (fun kv => kv.2)

/-- Membership test for a key in a Python-dict model (the `in` operator). -/
def dictHasKey (kvs : List (List Char × JValue)) (k : List Char) : Bool :=
  kvs.any (fun kv => kv.1 = k)

/-- The `path` field name of a change entry. -/
def pathKey : List Char := ("path").toList

/-- The `content` field name of a change entry. -/
def contentKey : List Char := ("content").toList

/-- The `changes` field name of the decoded object. -/
def changesKey : List Char := ("changes").toList

/-- Hex digit value, for the \uXXXX string escape. -/
def hexVal (c : Char) : Option Nat :=
  if '0' ≤ c ∧ c ≤ '9' then some (c.toNat - '0'.toNat)
  else if 'a' ≤ c ∧ c ≤ 'f' then some (c.toNat - 'a'.toNat + 10)
  else if 'A' ≤ c ∧ c ≤ 'F' then some (c.toNat - 'A'.toNat + 10)
  else none

/-- Parse the body of a JSON string after the opening quote, returning the
decoded characters and the remainder after the closing quote.  Mirrors
`json.loads` string handling: the standard escapes, \uXXXX, and rejection
of raw control characters. -/
def parseStringRest : List Char → Option (List Char × List Char)
  | [] => none
  | '"' :: rest => some ([], rest)
  | '\\' :: e :: rest =>
    match e with
    | '"' => (parseStringRest rest).map (fun p => ('"' :: p.1, p.2))
    | '\\' => (parseStringRest rest).map (fun p => ('\\' :: p.1, p.2))
    | '/' => (parseStringRest rest).map (fun p => ('/' :: p.1, p.2))
    | 'n' => (parseStringRest rest).map (fun p => ('\n' :: p.1, p.2))
    | 't' => (parseStringRest rest).map (fun p => ('\t' :: p.1, p.2))
    | 'r' => (parseStringRest rest).map (fun p => ('\r' :: p.1, p.2))
    | 'b' => (parseStringRest rest).map (fun p => (Char.ofNat 8 :: p.1, p.2))
    | 'f' => (parseStringRest rest).map (fun p => (Char.ofNat 12 :: p.1, p.2))
    | 'u' =>
      match rest with
      | a :: b :: c :: d :: rest2 =>
        match hexVal a, hexVal b, hexVal c, hexVal d with
        | some x, some y, some z, some w =>
          (parseStringRest rest2).map
            (fun p => (Char.ofNat (((x * 16 + y) * 16 + z) * 16 + w) :: p.1, p.2))
        | _, _, _, _ => none
      | _ => none
    | _ => none
  | c :: rest =>
    if c.toNat < 32 then none
    else (parseStringRest rest).map (fun p => (c :: p.1, p.2))

/-- Decimal digits to a natural number. -/
def digitsToNat (ds : List Char) : Nat :=
  ds.foldl (fun acc c => acc * 10 + (c.toNat - '0'.toNat)) 0

/-- Parse a JSON integer literal (model restriction: no fraction or
exponent part; a leading zero followed by more digits is rejected, as
`json.loads` rejects it). -/
def parseNum (neg : Bool) (l : List Char) : Option (JValue × List Char) :=
  let ds := l.takeWhile Char.isDigit
  let rest := l.dropWhile Char.isDigit
  if ds.isEmpty then none
  else if ds.length > 1 && ds.head? = some '0' then none
  else
    let n : Int := Int.ofNat (digitsToNat ds)
    some (JValue.num (if neg then -n else n), rest)

mutual

/-- Fuel-indexed parser for one JSON value, skipping leading whitespace.
Models the recursive descent of `json.loads`. -/
def parseVal : Nat → List Char → Option (JValue × List Char)
  | 0, _ => none
  | fuel + 1, l =>
    match skipWS l with
    | '{' :: rest =>
      (match skipWS rest with
       | '}' :: rest2 => some (JValue.obj [], rest2)
       | other => parseMembers fuel other [])
    | '[' :: rest =>
      (match skipWS rest with
       | ']' :: rest2 => some (JValue.arr [], rest2)
       | other => parseItems fuel other [])
    | '"' :: rest => (parseStringRest rest).map (fun p => (JValue.str p.1, p.2))
    | 't' :: 'r' :: 'u' :: 'e' :: rest => some (JValue.bool true, rest)
    | 'f' :: 'a' :: 'l' :: 's' :: 'e' :: rest => some (JValue.bool false, rest)
    | 'n' :: 'u' :: 'l' :: 'l' :: rest => some (JValue.null, rest)
    | '-' :: rest => parseNum true rest
    | c :: rest => if c.isDigit then parseNum false (c :: rest) else none
    | [] => none

/-- Parse the members of a JSON object after the opening brace (at least
one member present). -/
def parseMembers : Nat → List Char → List (List Char × JValue) →
    Option (JValue × List Char)
  | 0, _, _ => none
  | fuel + 1, l, acc =>
    match skipWS l with
    | '"' :: rest =>
      (match parseStringRest rest with
       | none => none
       | some (k, rest2) =>
         match skipWS rest2 with
         | ':' :: rest3 =>
           (match parseVal fuel rest3 with
            | none => none
            | some (v, rest4) =>
              let acc2 := dictInsert acc k v
              match skipWS rest4 with
              | ',' :: rest5 => parseMembers fuel rest5 acc2
              | '}' :: rest5 => some (JValue.obj acc2, rest5)
              | _ => none)
         | _ => none)
    | _ => none

/-- Parse the items of a JSON array after the opening bracket (at least
one item present). -/
def parseItems : Nat → List Char → List JValue → Option (JValue × List Char)
  | 0, _, _ => none
  | fuel + 1, l, acc =>
    match parseVal fuel l with
    | none => none
    | some (v, rest) =>
      let acc2 := acc ++ [v]
      match skipWS rest with
      | ',' :: rest2 => parseItems fuel rest2 acc2
      | ']' :: rest2 => some (JValue.arr acc2, rest2)
      | _ => none

end

/-- Model of Python `json.loads` on the text: parse one value and require
only whitespace to remain.  Returns `none` where `json.loads` raises. -/
def json_loads (l : List Char) : Option JValue :=
  match parseVal (l.length + 1) l with
  | some (v, rest) => if (skipWS rest).isEmpty then some v else none
  | none => none

/-- Model of `re.search(r"\x7b.*\x7d", out_text, flags=re.DOTALL)` followed
by `m.group(0)`: the span from the first opening brace to the last closing
brace, when a closing brace occurs after the first opening brace. -/
def extract_braces (l : List Char) : Option (List Char) :=
  if (((l.dropWhile (fun c => c != '{')).reverse.dropWhile
        (fun c => c != '}')).reverse).isEmpty then
    none
  else
    some (((l.dropWhile (fun c => c != '{')).reverse.dropWhile
      (fun c => c != '}')).reverse)

/-- Outcome of the response-decoding phase of ai_writer.py (lines
113-135): either a decode failure with the diagnostic printed to stderr
(the script then exits 0), or the decoded `changes` list. -/
inductive DecodeOutcome : Type where
  | failure (diag : List Char) : DecodeOutcome
  | ok (changes : List JValue) : DecodeOutcome

/-- Diagnostic of ai_writer.py line 129 (the `print` with a comma inserts
one space between the text and the raw output). -/
def parseFailMsg (outText : List Char) : List Char :=
  ("Failed to parse model output as JSON. Raw output:\n ").toList ++ outText

/-- Diagnostic of ai_writer.py line 134. -/
def notListMsg : List Char :=
  ("Model returned invalid \x27changes\x27 (not a list); aborting.").toList

/-- Data-recovery step of the decoder (ai_writer.py lines 117-126): try a
strict parse of the stripped text, fall back to a strict parse of the
first-brace-to-last-brace substring, else no data. -/
def decodeData (outText : List Char) : Option JValue :=
  match json_loads outText with
  | some d => some d
  | none =>
    match extract_braces outText with
    | some sub => json_loads sub
    | none => none

/-- Shape-check step of the decoder (ai_writer.py lines 128-135): the
recovered data must be a dict containing a `changes` key whose value is a
list; the first failure branch dumps the stripped raw text, the second
does not. -/
def decodeShape (outText : List Char) (data : Option JValue) : DecodeOutcome :=
  match data with
  | some (JValue.obj kvs) =>
    if dictHasKey kvs changesKey then
      match dictGet kvs changesKey with
      | some (JValue.arr xs) => DecodeOutcome.ok xs
      | _ => DecodeOutcome.failure notListMsg
    else
      DecodeOutcome.failure (parseFailMsg outText)
  | _ => DecodeOutcome.failure (parseFailMsg outText)

/-- Response decoder of ai_writer.py (lines 113-135): strip the raw text,
recover a JSON value, and check its shape. -/
def decode_changes (raw : List Char) : DecodeOutcome :=
  decodeShape (pystrip raw) (decodeData (pystrip raw))

/-! ## Path handling (model of the pathlib and fnmatch standard library
calls made by both scripts) -/

/-- Path components as computed by `pathlib.PurePath.parts` for relative
paths: split on slashes, with empty components and single dots collapsed. -/
def pathParts (p : List Char) : List (List Char) :=
  (p.splitOn '/').filter (fun c => !c.isEmpty && c ≠ ['.'])

/-- Core of `fnmatch` as used by `PurePath.match` on one path component.
The model covers literal characters and the wildcards `*` and `?` (the
glob patterns this repository is driven with); character classes are not
modelled. -/
def fnmatchChars : List Char → List Char → Bool
  | [], s => s.isEmpty
  | '*' :: ps, s => s.tails.any (fun t => fnmatchChars ps t)
  | '?' :: ps, s =>
    (match s with
     | [] => false
     | _ :: s2 => fnmatchChars ps s2)
  | c :: ps, s =>
    (match s with
     | [] => false
     | d :: s2 => c = d && fnmatchChars ps s2)

/-- Model of `pathlib.PurePath.match` for relative patterns: the pattern's
components must match the same number of trailing components of the path. -/
def path_match (p g : List Char) : Bool :=
  let pp := pathParts p
  let gp := pathParts g
  if gp.isEmpty then false
  else if pp.length < gp.length then false
  else ((pp.drop (pp.length - gp.length)).zip gp).all
    (fun x => fnmatchChars x.2 x.1)

/-- Python `str.rstrip("*")`: drop trailing asterisks. -/
def rstripStar (g : List Char) : List Char :=
  (g.reverse.dropWhile (fun c => c = '*')).reverse

/-- Allowlist membership check shared by both apply loops
(`allowed_by_globs` in ai_writer.py lines 138-142; the same expression is
inlined at ai-writer.py line 112): the path matches a glob under
`PurePath.match`, or its posix form starts with the glob minus trailing
asterisks. -/
def allowed_by_globs (globs : List (List Char)) (p : List Char) : Bool :=
  globs.any (fun g => path_match p g || (rstripStar g).isPrefixOf p)

/-- Model of `pathlib.PurePath.name`: the final path component (empty for
an empty path). -/
def pathName (p : List Char) : List Char :=
  ((pathParts p).getLast?).getD []

/-- Model of `pathlib.PurePath.suffix`: the extension of the final
component, taken from its last dot when that dot is neither the first nor
the last character of the name. -/
def pathSuffix (p : List Char) : List Char :=
  let n := pathName p
  let k := n.length - 1 - (n.reverse.takeWhile (fun c => c != '.')).length
  if (n.reverse.takeWhile (fun c => c != '.')).length = n.length then []
  else if k = 0 then []
  else if k = n.length - 1 then []
  else n.drop k

/-- Binary-extension denylist of `read_files` (ai_writer.py line 28). -/
def denylist : List (List Char) :=
  [(".png").toList, (".jpg").toList, (".jpeg").toList, (".gif").toList,
   (".pdf").toList, (".zip").toList, (".tar").toList, (".gz").toList]

/-! ## File Collector (`read_files`, identical in both variants) -/

/-- Filter applied to each `glob.glob` result inside `read_files`: must be
a regular file, must not carry a denylisted extension (compared
lowercase), and its name must not start with the reserved ".ai-" prefix. -/
def keepCandidate (isFile : List Char → Bool) (p : List Char) : Bool :=
  isFile p &&
    !(denylist.contains ((pathSuffix p).map Char.toLower)) &&
    !((".ai-").toList.isPrefixOf (pathName p))

/-- Inner loop of `read_files`: walk the concatenated glob results in
order, keeping a `seen` set, appending each path that passes the filter
and has not been seen. -/
def collectLoop (keep : List Char → Bool) :
    List (List Char) → List (List Char) → List (List Char)
  | _, [] => []
  | seen, p :: rest =>
    if !(keep p) then collectLoop keep seen rest
    else if seen.contains p then collectLoop keep seen rest
    else p :: collectLoop keep (p :: seen) rest

/-- `read_files` (ai_writer.py lines 20-36): for each configured glob in
order, enumerate the filesystem (`glob.glob(g, recursive=True)` is the
external parameter `globEnum`), filter, and deduplicate keeping the first
occurrence.  Flattening the two nested `for` loops into one pass over the
concatenation preserves the visitation order exactly. -/
def read_files (globs : List (List Char)) (globEnum : List Char → List (List Char))
    (isFile : List Char → Bool) : List (List Char) :=
  collectLoop (keepCandidate isFile) [] (globs.flatMap globEnum)

/-! ## Filesystem state and the Change Applier -/

/-- Filesystem model: text files as an association list from path to
content, plus the set of directories created by `mkdir`. -/
structure FS : Type where
  files : List (List Char × List Char)
  dirs : List (List Char)
  deriving DecidableEq

/-- Content of the file at a path, when present. -/
def fileContent (fs : FS) (p : List Char) : Option (List Char) :=
  ((fs.files.find? (fun e => e.1 = p))).map (fun e => e.2)

/-- Model of `Path.exists()`: true for a tracked file or directory. -/
def pathExists (fs : FS) (p : List Char) : Bool :=
  (fileContent fs p).isSome || fs.dirs.contains p

/-- Model of `Path.write_text`: update the path-to-content map.  The map
is observed only through `fileContent`'s first-match lookup, so the
update is represented by prepending the new binding. -/
def writeFile (fs : FS) (p content : List Char) : FS :=
  { fs with files := (p, content) :: fs.files }

/-- Join path components with slashes. -/
def joinParts (cs : List (List Char)) : List Char :=
  (cs.intersperse ['/']).flatten

/-- Proper ancestor directories of a path, innermost last: what
`p.parent.mkdir(parents=True, exist_ok=True)` creates. -/
def parentDirs (p : List Char) : List (List Char) :=
  (List.range ((pathParts p).length - 1)).map
    (fun k => joinParts ((pathParts p).take (k + 1)))

/-- Model of `p.parent.mkdir(parents=True, exist_ok=True)`. -/
def mkdirParents (fs : FS) (p : List Char) : FS :=
  { fs with dirs := fs.dirs ++ (parentDirs p).filter (fun d => !(fs.dirs.contains d)) }

/-- Python `str.replace("\r\n", "\n")`: left-to-right non-overlapping
replacement (the line-ending tidy step before each write). -/
def normalizeNewlines : List Char → List Char
  | '\r' :: '\n' :: rest => '\n' :: normalizeNewlines rest
  | c :: rest => c :: normalizeNewlines rest
  | [] => []

/-- State threaded through an apply loop: the filesystem, the applied
counter, and the uncaught exception (message) if one was raised, which
ends the run with exit status 1. -/
structure ApplyState : Type where
  fs : FS
  applied : Nat
  err : Option (List Char)
  deriving DecidableEq

def keyErrMsg : List Char := ("KeyError").toList

def typeErrMsg : List Char := ("TypeError").toList

def attrErrMsg : List Char := ("AttributeError").toList

/-- One iteration of the apply loop of ai_writer.py (lines 145-157):
`ch.get` raises AttributeError on a non-dict; entries whose `path` or
`content` is missing or not a string are skipped; a path outside the
allowlist is skipped; otherwise parents are created when the target does
not exist (unconditionally — this variant never consults
`allow_creates`), the content's CRLFs are normalized, and the file is
written. -/
def applyChangeU (globs : List (List Char)) (st : ApplyState) (ch : JValue) :
    ApplyState :=
  match ch with
  | JValue.obj kvs =>
    match dictGet kvs pathKey, dictGet kvs contentKey with
    | some (JValue.str p), some (JValue.str c) =>
      if !(allowed_by_globs globs p) then st
      else
        let fs1 := if !(pathExists st.fs p) then mkdirParents st.fs p else st.fs
        { fs := writeFile fs1 p (normalizeNewlines c),
          applied := st.applied + 1, err := none }
    | _, _ => st
  | _ => { st with err := some attrErrMsg }

/-- Apply loop of ai_writer.py: process the entries in order, stopping at
the first uncaught exception. -/
def applyLoopU (globs : List (List Char)) :
    ApplyState → List JValue → ApplyState
  | st, [] => st
  | st, ch :: rest =>
    let st2 := applyChangeU globs st ch
    match st2.err with
    | some _ => st2
    | none => applyLoopU globs st2 rest

/-- One iteration of the apply loop of ai-writer.py (lines 109-122):
`ch["path"]` raises KeyError when missing and TypeError when `ch` is not a
dict; `pathlib.Path` raises TypeError on a non-string; an allowed,
non-existent target is skipped when the policy's `allow_creates` is false
(absent defaults to true), otherwise parents are created; then
`ch["content"]` is read (KeyError when missing, after the mkdir side
effect; AttributeError from `.replace` when not a string) and the file is
written. -/
def applyChangeD (globs : List (List Char)) (allowCreates : Option Bool)
    (st : ApplyState) (ch : JValue) : ApplyState :=
  match ch with
  | JValue.obj kvs =>
    match dictGet kvs pathKey with
    | none => { st with err := some keyErrMsg }
    | some (JValue.str p) =>
      if !(allowed_by_globs globs p) then st
      else if !(pathExists st.fs p) && !(allowCreates.getD true) then st
      else
        let fs1 := if !(pathExists st.fs p) then mkdirParents st.fs p else st.fs
        match dictGet kvs contentKey with
        | none => { fs := fs1, applied := st.applied, err := some keyErrMsg }
        | some (JValue.str c) =>
          { fs := writeFile fs1 p (normalizeNewlines c),
            applied := st.applied + 1, err := none }
        | some _ => { fs := fs1, applied := st.applied, err := some attrErrMsg }
    | some _ => { st with err := some typeErrMsg }
  | _ => { st with err := some typeErrMsg }

/-- Apply loop of ai-writer.py: process the entries in order, stopping at
the first uncaught exception. -/
def applyLoopD (globs : List (List Char)) (allowCreates : Option Bool) :
    ApplyState → List JValue → ApplyState
  | st, [] => st
  | st, ch :: rest =>
    let st2 := applyChangeD globs allowCreates st ch
    match st2.err with
    | some _ => st2
    | none => applyLoopD globs allowCreates st2 rest

/-! ## Pipeline staging up to the external service call -/

/-- Result of running a script from file collection up to the point of
the external `client.responses.create` call: either a `sys.exit` with the
given status and message, or the service boundary is reached with the
collected candidate paths. -/
inductive PipeResult : Type where
  | halted (code : Nat) (msg : List Char) : PipeResult
  | service (candidates : List (List Char)) : PipeResult
  deriving DecidableEq

/-- Message of the budget gate (ai_writer.py line 45, ai-writer.py
line 41): reports the measured size and the limit. -/
def refusingMsg (total limitB : Nat) : List Char :=
  ("Refusing: ").toList ++ (toString total).toList ++
    (" bytes exceeds limit ").toList ++ (toString limitB).toList

/-- Message of ai_writer.py line 40. -/
def nothingMsg : List Char :=
  ("No files matched the allowed globs; nothing to edit.").toList

/-- Message of ai_writer.py line 71. -/
def noKeyMsg : List Char :=
  ("No API key found in env (tried OPENAI_API_KEY and OPEN_AI_KEY).").toList

/-- Python `A or B` over environment lookups, where `None` and the empty
string are falsy (ai_writer.py line 69). -/
def pyOr (a b : Option (List Char)) : Option (List Char) :=
  match a with
  | some s => if s.isEmpty then b else some s
  | none => b

/-- Python truthiness of the resolved api_key value. -/
def isTruthy (a : Option (List Char)) : Bool :=
  match a with
  | some s => !s.isEmpty
  | none => false

/-- ai_writer.py, lines 38-92, up to the service call: collect files,
stop with exit 0 when nothing matched, stop with exit 0 when the byte
budget is exceeded, stop with exit 1 when neither OPENAI_API_KEY nor
OPEN_AI_KEY yields a truthy value, otherwise reach
`client.responses.create`.  `sizeOf` is the external `p.stat().st_size`. -/
def pipelineU (globs : List (List Char)) (globEnum : List Char → List (List Char))
    (isFile : List Char → Bool) (sizeOf : List Char → Nat) (maxB : Nat)
    (env : List Char → Option (List Char)) : PipeResult :=
  let files := read_files globs globEnum isFile
  if files.isEmpty then PipeResult.halted 0 nothingMsg
  else
    let total := (files.map sizeOf).sum
    if total > maxB then PipeResult.halted 0 (refusingMsg total maxB)
    else
      let apiKey := pyOr (env ("OPENAI_API_KEY").toList) (env ("OPEN_AI_KEY").toList)
      if !(isTruthy apiKey) then PipeResult.halted 1 noKeyMsg
      else PipeResult.service files

/-- ai-writer.py, lines 38-96, up to the service call: this variant has
no empty-candidate check and no credential resolution of its own (the
client library is constructed unconditionally), so after the budget gate
it always reaches `client.responses.create` — with an empty bundle when
no file matched. -/
def pipelineD (globs : List (List Char)) (globEnum : List Char → List (List Char))
    (isFile : List Char → Bool) (sizeOf : List Char → Nat) (maxB : Nat) :
    PipeResult :=
  let files := read_files globs globEnum isFile
  let total := (files.map sizeOf).sum
  if total > maxB then PipeResult.halted 0 (refusingMsg total maxB)
  else PipeResult.service files

/-! ## The phase after the service response (ai_writer.py) -/

/-- Summary line printed at ai_writer.py line 159. -/
def appliedMsg (n : Nat) : List Char :=
  ("Applied changes to ").toList ++ (toString n).toList ++ (" file(s).").toList

/-- Final observable outcome of the decode-and-apply phase: resulting
filesystem, applied count, process exit status, and the messages printed. -/
structure PhaseResult : Type where
  fs : FS
  applied : Nat
  exitCode : Nat
  diags : List (List Char)
  deriving DecidableEq

/-- ai_writer.py, lines 113 to the end, as a function of the raw response
text: decode, and on success run the apply loop; a decode failure prints
its diagnostic and exits 0 with no changes; an uncaught exception in the
apply loop exits 1; otherwise the summary is printed and the process ends
with status 0. -/
def runAfterResponseU (globs : List (List Char)) (fs : FS) (raw : List Char) :
    PhaseResult :=
  match decode_changes raw with
  | DecodeOutcome.failure d => { fs := fs, applied := 0, exitCode := 0, diags := [d] }
  | DecodeOutcome.ok chs =>
    let st := applyLoopU globs { fs := fs, applied := 0, err := none } chs
    match st.err with
    | some e => { fs := st.fs, applied := st.applied, exitCode := 1, diags := [e] }
    | none => { fs := st.fs, applied := st.applied, exitCode := 0,
                diags := [appliedMsg st.applied] }

/-- An entry is well formed when it is a dict carrying `path` and
`content` as strings (the shape the spec calls a Change Request). -/
def isWellFormed (ch : JValue) : Bool :=
  match ch with
  | JValue.obj kvs =>
    (match dictGet kvs pathKey, dictGet kvs contentKey with
     | some (JValue.str _), some (JValue.str _) => true
     | _, _ => false)
  | _ => false

/-- An entry is a dict (any `.get` call on it succeeds). -/
def isDictEntry (ch : JValue) : Bool :=
  match ch with
  | JValue.obj _ => true
  | _ => false

/-- A well-formed entry whose path passes the applier's allowlist check:
exactly the entries the ai_writer.py loop counts as applied. -/
def wellFormedAllowed (globs : List (List Char)) (ch : JValue) : Bool :=
  match ch with
  | JValue.obj kvs =>
    (match dictGet kvs pathKey, dictGet kvs contentKey with
     | some (JValue.str p), some (JValue.str _) => allowed_by_globs globs p
     | _, _ => false)
  | _ => false

/-! ## Spec-side comparator and concrete inputs used by the theorems -/

/-- Deduplication keeping the first occurrence, order preserved: the
spec's "duplicates across overlapping globs are suppressed, first
occurrence wins".  Stated as a comparator for `read_files`. -/
def dedupFirstWins : List (List Char) → List (List Char)
  | [] => []
  | p :: rest => p :: dedupFirstWins (rest.filter (fun q => q != p))
  termination_by l => l.length
  decreasing_by
    exact Nat.lt_succ_of_le (List.length_filter_le _ _)

/-- A well-formed Change Request as a decoded JSON entry. -/
def mkChange (p c : List Char) : JValue :=
  JValue.obj [(pathKey, JValue.str p), (contentKey, JValue.str c)]

/-- Substring test (is `needle` a contiguous run of `hay`), used to state
that a diagnostic does or does not include the raw response. -/
def containsSub (hay needle : List Char) : Bool :=
  (List.range (hay.length + 1)).any (fun i => needle.isPrefixOf (hay.drop i))

/-- Empty filesystem used by several concrete scenarios. -/
def fs0 : FS := { files := [], dirs := [] }

/-- Filesystem holding the reserved policy file, for the C1 scenario. -/
def fsPolicy : FS :=
  { files := [((".ai-policy.yml").toList, ("old").toList)], dirs := [] }

/-- Raw response whose parsed value carries `changes` as a number, not a
list (C5 scenario). -/
def rawNotList : List Char := ("\x7b\"changes\": 5\x7d").toList

/-- Bare JSON object with one valid change (C6 scenario). -/
def rawBare : List Char :=
  ("\x7b\"changes\":[\x7b\"path\":\"docs/readme.md\",\"content\":\"Hello world\"\x7d]\x7d").toList

/-- The same object wrapped in brace-free prose that happens to form a
JSON array, defeating the decoder (C6 scenario). -/
def rawWrapped : List Char := ("[").toList ++ rawBare ++ ("]").toList

/-- Decoded changes array with one well-formed and one malformed entry
(C4 scenario). -/
def rawMixed : List Char :=
  ("\x7b\"changes\":[\x7b\"path\":\"docs/a.md\",\"content\":\"x\"\x7d,\x7b\"path\":5,\"content\":\"y\"\x7d]\x7d").toList

/-- The entries `decode_changes` recovers from `rawMixed`. -/
def chsMixed : List JValue :=
  [JValue.obj [(("path").toList, JValue.str ("docs/a.md").toList),
               (("content").toList, JValue.str ("x").toList)],
   JValue.obj [(("path").toList, JValue.num 5),
               (("content").toList, JValue.str ("y").toList)]]

/-- A dict entry with no `path` key (C4 scenario: raises KeyError in
ai-writer.py). -/
def entryNoPath : JValue :=
  JValue.obj [(("content").toList, JValue.str ("x").toList)]

/-- Environment with no variables set. -/
def envNone : List Char → Option (List Char) := fun _ => none

/-- Glob enumeration over a filesystem where nothing matches. -/
def enumNone : List Char → List (List Char) := fun _ => []

/-- Glob enumeration yielding one markdown file. -/
def enumSingle : List Char → List (List Char) := fun _ => [("a.md").toList]

/-- `is_file` oracle that treats every enumerated path as a regular file. -/
def allFiles : List Char → Bool := fun _ => true

/-- Size oracle reporting five bytes per file. -/
def size5 : List Char → Nat := fun _ => 5

/-! ## Helper lemmas about the filesystem model -/

theorem fileContent_writeFile_self (fs : FS) (p c : List Char) :
    fileContent (writeFile fs p c) p = some c := by
  simp [fileContent, writeFile]

theorem fileContent_writeFile_ne (fs : FS) (p c q : List Char) (h : q ≠ p) :
    fileContent (writeFile fs p c) q = fileContent fs q := by
  have h2 : ¬(p = q) := fun e => h e.symm
  simp [fileContent, writeFile, List.find?_cons, h2]

theorem fileContent_mkdirParents (fs : FS) (p q : List Char) :
    fileContent (mkdirParents fs p) q = fileContent fs q := rfl

theorem applyChangeU_preserves (globs : List (List Char)) (p : List Char)
    (h : allowed_by_globs globs p = false) (st : ApplyState) (ch : JValue) :
    fileContent (applyChangeU globs st ch).fs p = fileContent st.fs p := by
  cases ch <;> try rfl
  case obj kvs =>
    simp only [applyChangeU]
    split
    case h_1 q c hq hc =>
      split
      case isTrue => rfl
      case isFalse hall =>
        have hqp : q ≠ p := by
          intro e
          subst e
          simp [h] at hall
        simp only
        rw [fileContent_writeFile_ne _ _ _ _ (fun e => hqp e.symm)]
        split <;> rfl
    case h_2 => rfl

theorem applyLoopU_preserves (globs : List (List Char)) (p : List Char)
    (h : allowed_by_globs globs p = false) :
    ∀ (chs : List JValue) (st : ApplyState),
      fileContent (applyLoopU globs st chs).fs p = fileContent st.fs p := by
  intro chs
  induction chs with
  | nil => intro st; rfl
  | cons ch rest ih =>
    intro st
    unfold applyLoopU
    dsimp only
    split
    case h_1 => exact applyChangeU_preserves globs p h st ch
    case h_2 =>
      rw [ih (applyChangeU globs st ch)]
      exact applyChangeU_preserves globs p h st ch

theorem applyChangeD_preserves (globs : List (List Char)) (allowCreates : Option Bool)
    (p : List Char) (h : allowed_by_globs globs p = false)
    (st : ApplyState) (ch : JValue) :
    fileContent (applyChangeD globs allowCreates st ch).fs p = fileContent st.fs p := by
  cases ch <;> try rfl
  case obj kvs =>
    simp only [applyChangeD]
    split
    case h_1 => rfl
    case h_2 q hq =>
      split
      case isTrue => rfl
      case isFalse hall =>
        have hqp : q ≠ p := by
          intro e
          subst e
          simp [h] at hall
        split
        case isTrue => rfl
        case isFalse =>
          split
          case h_1 => split <;> rfl
          case h_2 c hc =>
            rw [fileContent_writeFile_ne _ _ _ _ (fun e => hqp e.symm)]
            split <;> rfl
          case h_3 => split <;> rfl
    case h_3 => rfl

theorem applyLoopD_preserves (globs : List (List Char)) (allowCreates : Option Bool)
    (p : List Char) (h : allowed_by_globs globs p = false) :
    ∀ (chs : List JValue) (st : ApplyState),
      fileContent (applyLoopD globs allowCreates st chs).fs p = fileContent st.fs p := by
  intro chs
  induction chs with
  | nil => intro st; rfl
  | cons ch rest ih =>
    intro st
    unfold applyLoopD
    dsimp only
    split
    case h_1 => exact applyChangeD_preserves globs allowCreates p h st ch
    case h_2 =>
      rw [ih (applyChangeD globs allowCreates st ch)]
      exact applyChangeD_preserves globs allowCreates p h st ch

/-! ## C1: allowlist closure of the Change Applier -/

/-- C1, counterexample.  The file `.ai-policy.yml` would never qualify as
a candidate under the Collector's rule (its name starts with the reserved
".ai-" prefix, so `keepCandidate` rejects it for every filesystem), yet a
Change Request for it passes the Applier's glob-only check against the
allowlist `["*.yml"]` and the file is overwritten: the Applier does not
re-apply the denylist or the reserved-prefix rule. -/
theorem c1_counterexample :
    (".ai-").toList.isPrefixOf (pathName ((".ai-policy.yml").toList)) = true ∧
    keepCandidate (fun _ => true) ((".ai-policy.yml").toList) = false ∧
    fileContent fsPolicy ((".ai-policy.yml").toList) = some (("old").toList) ∧
    fileContent (applyLoopU [("*.yml").toList] { fs := fsPolicy, applied := 0, err := none }
        [mkChange ((".ai-policy.yml").toList) (("pwned").toList)]).fs
        ((".ai-policy.yml").toList) = some (("pwned").toList) :=
  ⟨by decide, by decide, rfl, rfl⟩

/-- C1, amended: the Applier (both variants) rejects exactly the Change
Requests whose path fails `allowed_by_globs` (a `PurePath.match` against
some configured glob, or a prefix match against a glob with trailing
asterisks stripped); for every path outside that check the filesystem is
left unmodified at that path, regardless of the ordering or number of
requests.  Requests with a binary-denylist extension or a reserved
".ai-" filename prefix are not rejected when they match a glob. -/
theorem c1_allowlist_closure (globs : List (List Char)) (fs : FS)
    (chs : List JValue) (allowCreates : Option Bool) (p : List Char)
    (h : allowed_by_globs globs p = false) :
    fileContent (applyLoopU globs { fs := fs, applied := 0, err := none } chs).fs p
      = fileContent fs p ∧
    fileContent (applyLoopD globs allowCreates { fs := fs, applied := 0, err := none } chs).fs p
      = fileContent fs p :=
  ⟨applyLoopU_preserves globs p h chs _, applyLoopD_preserves globs allowCreates p h chs _⟩

/-- C1, witness for the amended theorem at a concrete input. -/
theorem c1_witness :
    allowed_by_globs [("docs/*.md").toList] (("secrets/key.txt").toList) = false ∧
    (fileContent (applyLoopU [("docs/*.md").toList] { fs := fs0, applied := 0, err := none }
        [mkChange (("secrets/key.txt").toList) (("x").toList)]).fs
        (("secrets/key.txt").toList) = fileContent fs0 (("secrets/key.txt").toList) ∧
     fileContent (applyLoopD [("docs/*.md").toList] none { fs := fs0, applied := 0, err := none }
        [mkChange (("secrets/key.txt").toList) (("x").toList)]).fs
        (("secrets/key.txt").toList) = fileContent fs0 (("secrets/key.txt").toList)) :=
  ⟨by decide,
   c1_allowlist_closure [("docs/*.md").toList] fs0
     [mkChange (("secrets/key.txt").toList) (("x").toList)] none
     (("secrets/key.txt").toList) (by decide)⟩

/-! ## C2: budget gate -/

/-- C2, counterexample.  With one candidate of five bytes against a
three-byte limit, both variants abort before the service call and report
the measured size and the limit — but the process exit status is 0
(`sys.exit(0)` at ai-writer.py line 42 and ai_writer.py line 46), not the
non-zero status the claim requires. -/
theorem c2_counterexample :
    ((read_files [("*").toList] enumSingle allFiles).map size5).sum = 5 ∧
    5 > 3 ∧
    pipelineU [("*").toList] enumSingle allFiles size5 3 envNone
      = PipeResult.halted 0 (refusingMsg 5 3) ∧
    pipelineD [("*").toList] enumSingle allFiles size5 3
      = PipeResult.halted 0 (refusingMsg 5 3) :=
  ⟨rfl, by decide, rfl, rfl⟩

/-- C2, amended: when the aggregate candidate byte size exceeds
`max_bytes`, both variants abort before any external service call and
report the measured size and the limit — but the process exits with
status 0, not a non-zero status. -/
theorem c2_budget_gate (globs : List (List Char))
    (globEnum : List Char → List (List Char)) (isFile : List Char → Bool)
    (sizeOf : List Char → Nat) (maxB : Nat) (env : List Char → Option (List Char))
    (h : ((read_files globs globEnum isFile).map sizeOf).sum > maxB) :
    pipelineU globs globEnum isFile sizeOf maxB env
      = PipeResult.halted 0
          (refusingMsg (((read_files globs globEnum isFile).map sizeOf).sum) maxB) ∧
    pipelineD globs globEnum isFile sizeOf maxB
      = PipeResult.halted 0
          (refusingMsg (((read_files globs globEnum isFile).map sizeOf).sum) maxB) := by
  constructor
  · have hfe : (read_files globs globEnum isFile).isEmpty = false := by
      cases hr : (read_files globs globEnum isFile) with
      | nil => rw [hr] at h; simp at h
      | cons a l => rfl
    simp [pipelineU, hfe, h]
  · simp [pipelineD, h]

/-- C2, witness for the amended theorem at a concrete input. -/
theorem c2_witness :
    pipelineU [("*").toList] enumSingle allFiles size5 3 envNone
      = PipeResult.halted 0
          (refusingMsg (((read_files [("*").toList] enumSingle allFiles).map size5).sum) 3) ∧
    pipelineD [("*").toList] enumSingle allFiles size5 3
      = PipeResult.halted 0
          (refusingMsg (((read_files [("*").toList] enumSingle allFiles).map size5).sum) 3) :=
  c2_budget_gate [("*").toList] enumSingle allFiles size5 3 envNone (by decide)

/-! ## C7: credential error -/

/-- C7, counterexample.  A run in which no credential source yields a key
but the candidate set is empty terminates with exit status 0 and the
"nothing to edit" message, not with a credential error and a non-zero
status: the credential check of ai_writer.py sits after the empty-set
exit. -/
theorem c7_counterexample :
    isTruthy (pyOr (envNone (("OPENAI_API_KEY").toList))
        (envNone (("OPEN_AI_KEY").toList))) = false ∧
    pipelineU [("docs/*.md").toList] enumNone allFiles size5 400000 envNone
      = PipeResult.halted 0 nothingMsg ∧
    nothingMsg ≠ noKeyMsg :=
  ⟨rfl, rfl, by decide⟩

/-- C7, amended: in ai_writer.py, a run that reaches the service stage
(non-empty candidate set within budget) and in which neither
OPENAI_API_KEY nor OPEN_AI_KEY yields a truthy value stops before the
external call with the distinguishable "No API key found" message and
exit status 1.  (ai-writer.py constructs the client without its own
check, delegating the missing-credential failure to the client library;
a run with an empty candidate set exits 0 first.) -/
theorem c7_credential_error (globs : List (List Char))
    (globEnum : List Char → List (List Char)) (isFile : List Char → Bool)
    (sizeOf : List Char → Nat) (maxB : Nat) (env : List Char → Option (List Char))
    (hne : (read_files globs globEnum isFile).isEmpty = false)
    (hb : ¬(((read_files globs globEnum isFile).map sizeOf).sum > maxB))
    (hk : isTruthy (pyOr (env (("OPENAI_API_KEY").toList))
        (env (("OPEN_AI_KEY").toList))) = false) :
    pipelineU globs globEnum isFile sizeOf maxB env = PipeResult.halted 1 noKeyMsg := by
  simp [pipelineU, hne, hb, hk]
  simpa using hk

/-- C7, witness for the amended theorem at a concrete input. -/
theorem c7_witness :
    pipelineU [("*").toList] enumSingle allFiles size5 400000 envNone
      = PipeResult.halted 1 noKeyMsg :=
  c7_credential_error [("*").toList] enumSingle allFiles size5 400000 envNone
    (by decide) (by decide) rfl

/-! ## C8: empty candidate set -/

/-- C8, counterexample.  ai-writer.py has no empty-candidate check: with
an empty candidate set the budget gate passes (zero bytes) and the run
proceeds to `client.responses.create` with an empty file bundle, so a
request is sent for zero candidates and no "nothing to edit" outcome is
produced. -/
theorem c8_counterexample :
    read_files [("docs/*.md").toList] enumNone allFiles = [] ∧
    pipelineD [("docs/*.md").toList] enumNone allFiles size5 400000
      = PipeResult.service [] :=
  ⟨rfl, rfl⟩

/-- C8, amended: in ai_writer.py an empty candidate set stops the run
with exit status 0 and the visible "nothing to edit" message before any
service interaction; ai-writer.py instead always reaches the service
call, with an empty bundle. -/
theorem c8_nothing_to_edit (globs : List (List Char))
    (globEnum : List Char → List (List Char)) (isFile : List Char → Bool)
    (sizeOf : List Char → Nat) (maxB : Nat) (env : List Char → Option (List Char))
    (h : read_files globs globEnum isFile = []) :
    pipelineU globs globEnum isFile sizeOf maxB env
      = PipeResult.halted 0 nothingMsg ∧
    pipelineD globs globEnum isFile sizeOf maxB = PipeResult.service [] := by
  constructor
  · simp [pipelineU, h]
  · simp [pipelineD, h]

/-- C8, witness for the amended theorem at a concrete input. -/
theorem c8_witness :
    pipelineU [("docs/*.md").toList] enumNone allFiles size5 400000 envNone
      = PipeResult.halted 0 nothingMsg ∧
    pipelineD [("docs/*.md").toList] enumNone allFiles size5 400000
      = PipeResult.service [] :=
  c8_nothing_to_edit [("docs/*.md").toList] enumNone allFiles size5 400000 envNone rfl

/-! ## C3 and C10: creation gating -/

theorem dictGet_mkChange_path (p c : List Char) :
    dictGet [(pathKey, JValue.str p), (contentKey, JValue.str c)] pathKey
      = some (JValue.str p) := rfl

theorem dictGet_mkChange_content (p c : List Char) :
    dictGet [(pathKey, JValue.str p), (contentKey, JValue.str c)] contentKey
      = some (JValue.str c) := rfl

theorem mem_dirs_mkdirParents (fs : FS) (p d : List Char) (h : d ∈ parentDirs p) :
    d ∈ (mkdirParents fs p).dirs := by
  simp only [mkdirParents, List.mem_append, List.mem_filter]
  by_cases hd : d ∈ fs.dirs
  · exact Or.inl hd
  · refine Or.inr ⟨h, ?_⟩
    simpa using hd

/-- C3, counterexample.  The apply loop of ai_writer.py (lines 145-157)
never consults `allow_creates`: for a well-formed Change Request to an
allowed, non-existent path it creates parent directories and writes the
file unconditionally, so under a policy with `allow_creates: false` the
file is still created rather than remaining absent. -/
theorem c3_counterexample :
    pathExists fs0 (("docs/new.md").toList) = false ∧
    fileContent (applyLoopU [("docs/*.md").toList] { fs := fs0, applied := 0, err := none }
        [mkChange (("docs/new.md").toList) (("hi").toList)]).fs (("docs/new.md").toList)
      = some (("hi").toList) :=
  ⟨rfl, rfl⟩

/-- C3, amended: creation gating holds in ai-writer.py (lines 114-118):
an allowed Change Request for a non-existent path is skipped and the file
remains absent when `allow_creates` is false, and is written with its
missing parent directories created when `allow_creates` is true.
ai_writer.py creates the file unconditionally, ignoring `allow_creates`. -/
theorem c3_creation_gating (globs : List (List Char)) (fs : FS) (p c : List Char)
    (hallow : allowed_by_globs globs p = true)
    (hne : pathExists fs p = false) :
    applyLoopD globs (some false) { fs := fs, applied := 0, err := none } [mkChange p c]
      = { fs := fs, applied := 0, err := none } ∧
    fileContent fs p = none ∧
    fileContent (applyLoopD globs (some true) { fs := fs, applied := 0, err := none }
        [mkChange p c]).fs p = some (normalizeNewlines c) ∧
    ((parentDirs p).all (fun d =>
        (applyLoopD globs (some true) { fs := fs, applied := 0, err := none }
          [mkChange p c]).fs.dirs.contains d)) = true := by
  have hfc : fileContent fs p = none := by
    simp only [pathExists, Bool.or_eq_false_iff] at hne
    exact Option.not_isSome_iff_eq_none.mp (by simp [hne.1])
  refine ⟨?_, hfc, ?_, ?_⟩
  · simp [applyLoopD, applyChangeD, mkChange, dictGet_mkChange_path,
      dictGet_mkChange_content, hallow, hne]
  · simp [applyLoopD, applyChangeD, mkChange, dictGet_mkChange_path,
      dictGet_mkChange_content, hallow, hne, fileContent_writeFile_self]
  · have key : applyLoopD globs (some true) { fs := fs, applied := 0, err := none }
        [mkChange p c]
        = { fs := writeFile (mkdirParents fs p) p (normalizeNewlines c),
            applied := 1, err := none } := by
      simp [applyLoopD, applyChangeD, mkChange, dictGet_mkChange_path,
        dictGet_mkChange_content, hallow, hne]
    rw [key]
    rw [List.all_eq_true]
    intro d hd
    have hm := mem_dirs_mkdirParents fs p d hd
    simpa [writeFile] using hm

/-- C3, witness for the amended theorem at a concrete input. -/
theorem c3_witness :
    applyLoopD [("docs/*.md").toList] (some false) { fs := fs0, applied := 0, err := none }
        [mkChange (("docs/new.md").toList) (("hi").toList)]
      = { fs := fs0, applied := 0, err := none } ∧
    fileContent fs0 (("docs/new.md").toList) = none ∧
    fileContent (applyLoopD [("docs/*.md").toList] (some true)
        { fs := fs0, applied := 0, err := none }
        [mkChange (("docs/new.md").toList) (("hi").toList)]).fs (("docs/new.md").toList)
      = some (normalizeNewlines (("hi").toList)) ∧
    ((parentDirs (("docs/new.md").toList)).all (fun d =>
        (applyLoopD [("docs/*.md").toList] (some true)
          { fs := fs0, applied := 0, err := none }
          [mkChange (("docs/new.md").toList) (("hi").toList)]).fs.dirs.contains d)) = true :=
  c3_creation_gating [("docs/*.md").toList] fs0 (("docs/new.md").toList) (("hi").toList)
    (by decide) rfl

/-- C10: when the policy overlay is absent or omits the `allow_creates`
key (modelled as `none`), creation of a non-existent allowed path is
permitted by default: ai-writer.py defaults `policy.get("allow_creates",
True)` to true, and ai_writer.py creates unconditionally with no check at
all — both write the file. -/
theorem c10_create_default (globs : List (List Char)) (fs : FS) (p c : List Char)
    (hallow : allowed_by_globs globs p = true)
    (hne : pathExists fs p = false) :
    fileContent (applyLoopD globs none { fs := fs, applied := 0, err := none }
        [mkChange p c]).fs p = some (normalizeNewlines c) ∧
    fileContent (applyLoopU globs { fs := fs, applied := 0, err := none }
        [mkChange p c]).fs p = some (normalizeNewlines c) := by
  constructor
  · simp [applyLoopD, applyChangeD, mkChange, dictGet_mkChange_path,
      dictGet_mkChange_content, hallow, hne, fileContent_writeFile_self]
  · simp [applyLoopU, applyChangeU, mkChange, dictGet_mkChange_path,
      dictGet_mkChange_content, hallow, hne, fileContent_writeFile_self]

/-- C10, witness at a concrete input. -/
theorem c10_witness :
    fileContent (applyLoopD [("docs/*.md").toList] none
        { fs := fs0, applied := 0, err := none }
        [mkChange (("docs/new.md").toList) (("hi").toList)]).fs (("docs/new.md").toList)
      = some (normalizeNewlines (("hi").toList)) ∧
    fileContent (applyLoopU [("docs/*.md").toList]
        { fs := fs0, applied := 0, err := none }
        [mkChange (("docs/new.md").toList) (("hi").toList)]).fs (("docs/new.md").toList)
      = some (normalizeNewlines (("hi").toList)) :=
  c10_create_default [("docs/*.md").toList] fs0 (("docs/new.md").toList) (("hi").toList)
    (by decide) rfl

/-! ## C4: partial-entry robustness -/

theorem applyChangeU_dict (globs : List (List Char)) (st : ApplyState)
    (kvs : List (List Char × JValue)) (h1 : st.err = none) :
    (applyChangeU globs st (JValue.obj kvs)).err = none ∧
    (applyChangeU globs st (JValue.obj kvs)).applied
      = st.applied + (if wellFormedAllowed globs (JValue.obj kvs) then 1 else 0) := by
  cases hp : dictGet kvs pathKey with
  | none => simp [applyChangeU, wellFormedAllowed, hp, h1]
  | some v =>
    cases hc : dictGet kvs contentKey with
    | none => cases v <;> simp [applyChangeU, wellFormedAllowed, hp, hc, h1]
    | some w =>
      cases v <;> cases w <;> simp [applyChangeU, wellFormedAllowed, hp, hc, h1] <;>
        rename_i p c <;> by_cases ha : allowed_by_globs globs p <;> simp [ha, h1]

theorem applyLoopU_count (globs : List (List Char)) :
    ∀ (chs : List JValue) (st : ApplyState), st.err = none →
      (∀ ch ∈ chs, isDictEntry ch = true) →
      (applyLoopU globs st chs).err = none ∧
      (applyLoopU globs st chs).applied
        = st.applied + chs.countP (wellFormedAllowed globs) := by
  intro chs
  induction chs with
  | nil => intro st h1 _; simpa [applyLoopU] using h1
  | cons ch rest ih =>
    intro st h1 h2
    have hd : isDictEntry ch = true := h2 ch (List.mem_cons_self ch rest)
    obtain ⟨kvs, rfl⟩ : ∃ kvs, ch = JValue.obj kvs := by
      cases ch <;> simp [isDictEntry] at hd <;> exact ⟨_, rfl⟩
    have hstep := applyChangeU_dict globs st kvs h1
    have hrest := ih (applyChangeU globs st (JValue.obj kvs)) hstep.1
      (fun x hx => h2 x (List.mem_cons_of_mem _ hx))
    unfold applyLoopU
    dsimp only
    rw [hstep.1]
    refine ⟨hrest.1, ?_⟩
    rw [hrest.2, hstep.2, List.countP_cons]
    by_cases hw : wellFormedAllowed globs (JValue.obj kvs) <;> simp [hw] <;> omega

/-- C4, counterexample.  In ai-writer.py the apply loop reads
`ch["path"]` directly (line 110): a dict entry missing the `path` field
raises KeyError, so a changes array with zero well-formed and one
malformed entry terminates the run with an uncaught exception (non-zero
exit) instead of silently skipping the entry and exiting 0. -/
theorem c4_counterexample :
    isDictEntry entryNoPath = true ∧
    isWellFormed entryNoPath = false ∧
    (applyLoopD [("*").toList] none { fs := fs0, applied := 0, err := none }
        [entryNoPath]).err = some keyErrMsg :=
  ⟨rfl, rfl, rfl⟩

/-- C4, amended: in ai_writer.py, for every decoded changes array whose
entries are all dicts, the run raises nothing, exits 0, and applies
exactly the well-formed entries whose path also passes the allowlist
check (well-formed entries outside the allowlist and malformed entries
are skipped silently); ai-writer.py instead raises on a malformed entry. -/
theorem c4_partial_entries (globs : List (List Char)) (fs : FS) (raw : List Char)
    (chs : List JValue) (hdec : decode_changes raw = DecodeOutcome.ok chs)
    (h : ∀ ch ∈ chs, isDictEntry ch = true) :
    (runAfterResponseU globs fs raw).exitCode = 0 ∧
    (runAfterResponseU globs fs raw).applied
      = chs.countP (wellFormedAllowed globs) := by
  have hc := applyLoopU_count globs chs { fs := fs, applied := 0, err := none } rfl h
  constructor
  · simp [runAfterResponseU, hdec, hc.1]
  · simp [runAfterResponseU, hdec, hc.1, hc.2]

/-- C4, witness for the amended theorem: a response with one well-formed
entry (applied) and one entry whose `path` is a number (skipped). -/
theorem c4_witness :
    (runAfterResponseU [("docs/*.md").toList] fs0 rawMixed).exitCode = 0 ∧
    (runAfterResponseU [("docs/*.md").toList] fs0 rawMixed).applied
      = chsMixed.countP (wellFormedAllowed [("docs/*.md").toList]) :=
  c4_partial_entries [("docs/*.md").toList] fs0 rawMixed chsMixed rfl (by decide)

/-! ## C5: decode failure handling -/

/-- C5, counterexample.  A raw response that strictly parses to a dict
whose `changes` field is a number takes the "not a list" branch
(ai_writer.py lines 133-135): the run still applies zero changes and
exits 0, but its diagnostic is a fixed message that does not include the
raw response, contradicting the claimed diagnostic content. -/
theorem c5_counterexample :
    decode_changes rawNotList = DecodeOutcome.failure notListMsg ∧
    runAfterResponseU [("*").toList] fs0 rawNotList
      = { fs := fs0, applied := 0, exitCode := 0, diags := [notListMsg] } ∧
    containsSub notListMsg rawNotList = false :=
  ⟨rfl, rfl, by decide⟩

/-- C5, amended: for every raw response on which the decoder reports a
failure (strict parse and substring extraction both fail to produce a
dict with a `changes` key, or the `changes` value is not a list), the run
applies zero changes, leaves the filesystem untouched, emits one
non-empty diagnostic, and exits with status 0; the diagnostic includes
the (stripped) raw response except in the changes-not-a-list branch. -/
theorem c5_decode_failure (globs : List (List Char)) (fs : FS) (raw d : List Char)
    (h : decode_changes raw = DecodeOutcome.failure d) :
    runAfterResponseU globs fs raw
      = { fs := fs, applied := 0, exitCode := 0, diags := [d] } ∧ d ≠ [] := by
  refine ⟨by simp [runAfterResponseU, h], ?_⟩
  unfold decode_changes decodeShape at h
  split at h
  case h_1 kvs =>
    split at h
    case isTrue =>
      split at h
      case h_1 => exact absurd h (by simp)
      case h_2 =>
        injection h with h2
        rw [← h2]
        simp [notListMsg]
    case isFalse =>
      injection h with h2
      rw [← h2]
      simp [parseFailMsg]
  case h_2 =>
    injection h with h2
    rw [← h2]
    simp [parseFailMsg]

/-- C5, witness for the amended theorem at a concrete input. -/
theorem c5_witness :
    runAfterResponseU [("*").toList] fs0 (("hello").toList)
      = { fs := fs0, applied := 0, exitCode := 0,
          diags := [parseFailMsg (("hello").toList)] } ∧
    parseFailMsg (("hello").toList) ≠ [] :=
  c5_decode_failure [("*").toList] fs0 (("hello").toList)
    (parseFailMsg (("hello").toList)) rfl

/-! ## C9: the File Collector -/

theorem mem_dedupFirstWins (a : List Char) :
    ∀ (l : List (List Char)), a ∈ dedupFirstWins l ↔ a ∈ l := by
  intro l
  induction l using dedupFirstWins.induct with
  | case1 => simp [dedupFirstWins]
  | case2 p rest ih =>
    rw [dedupFirstWins]
    by_cases hap : a = p
    · subst hap; simp
    · simp only [List.mem_cons, hap, false_or]
      rw [ih]
      simp [List.mem_filter, hap]

theorem nodup_dedupFirstWins : ∀ (l : List (List Char)), (dedupFirstWins l).Nodup := by
  intro l
  induction l using dedupFirstWins.induct with
  | case1 => simp [dedupFirstWins]
  | case2 p rest ih =>
    rw [dedupFirstWins]
    refine List.nodup_cons.mpr ⟨?_, ih⟩
    intro hmem
    rw [mem_dedupFirstWins] at hmem
    simp [List.mem_filter] at hmem

theorem collectLoop_cons_skip (keep : List Char → Bool) (seen : List (List Char))
    (p : List Char) (rest : List (List Char)) (h : keep p = false) :
    collectLoop keep seen (p :: rest) = collectLoop keep seen rest := by
  simp [collectLoop, h]

theorem collectLoop_cons_seen (keep : List Char → Bool) (seen : List (List Char))
    (p : List Char) (rest : List (List Char)) (hk : keep p = true)
    (hs : seen.contains p = true) :
    collectLoop keep seen (p :: rest) = collectLoop keep seen rest := by
  have hs2 : p ∈ seen := by simpa using hs
  simp [collectLoop, hk, hs2]

theorem collectLoop_cons_new (keep : List Char → Bool) (seen : List (List Char))
    (p : List Char) (rest : List (List Char)) (hk : keep p = true)
    (hs : seen.contains p = false) :
    collectLoop keep seen (p :: rest) = p :: collectLoop keep (p :: seen) rest := by
  have hs2 : p ∉ seen := by simpa using hs
  simp [collectLoop, hk, hs2]

theorem collectLoop_eq (keep : List Char → Bool) :
    ∀ (l seen : List (List Char)),
      collectLoop keep seen l
        = dedupFirstWins (l.filter (fun p => keep p && !(seen.contains p))) := by
  intro l
  induction l with
  | nil => intro seen; simp [collectLoop, dedupFirstWins]
  | cons p rest ih =>
    intro seen
    by_cases hk : keep p = true
    · by_cases hs : seen.contains p = true
      · have hneg : ¬(((fun q => keep q && !(seen.contains q)) p) = true) := by
          show ¬((keep p && !(seen.contains p)) = true)
          rw [hk, hs]
          simp
        rw [collectLoop_cons_seen keep seen p rest hk hs, ih seen,
          @List.filter_cons_of_neg _ (fun q => keep q && !(seen.contains q)) p rest hneg]
      · have hsf : seen.contains p = false := by simpa using hs
        have hpos : ((fun q => keep q && !(seen.contains q)) p) = true := by
          show (keep p && !(seen.contains p)) = true
          rw [hk, hsf]
          rfl
        rw [collectLoop_cons_new keep seen p rest hk hsf, ih (p :: seen),
          @List.filter_cons_of_pos _ (fun q => keep q && !(seen.contains q)) p rest hpos,
          dedupFirstWins]
        congr 1
        rw [List.filter_filter]
        congr 1
        refine List.filter_congr ?_
        intro q _
        cases h1 : keep q <;> cases h2 : q == p <;> cases h3 : seen.contains q <;>
          simp_all [List.contains_cons]
    · have hkf : keep p = false := by simpa using hk
      have hneg : ¬(((fun q => keep q && !(seen.contains q)) p) = true) := by
        show ¬((keep p && !(seen.contains p)) = true)
        rw [hkf]
        simp
      rw [collectLoop_cons_skip keep seen p rest hkf, ih seen,
        @List.filter_cons_of_neg _ (fun q => keep q && !(seen.contains q)) p rest hneg]

/-- C9: for every glob list and filesystem (the `glob.glob` enumeration
and `is_file` oracle), `read_files` returns a list containing no
directories, no files with a denylisted binary extension, and no files
whose name starts with the reserved ".ai-" prefix; the list has no
duplicate paths, and it equals the glob-order concatenation of the
enumeration, filtered by the candidate rule, with duplicates suppressed
keeping the first occurrence (glob-list order, then traversal order). -/
theorem c9_collector (globs : List (List Char))
    (globEnum : List Char → List (List Char)) (isFile : List Char → Bool) :
    ((read_files globs globEnum isFile).all (fun p =>
        isFile p &&
        !(denylist.contains ((pathSuffix p).map Char.toLower)) &&
        !((".ai-").toList.isPrefixOf (pathName p)))) = true ∧
    (read_files globs globEnum isFile).Nodup ∧
    read_files globs globEnum isFile
      = dedupFirstWins ((globs.flatMap globEnum).filter (keepCandidate isFile)) := by
  have heq : read_files globs globEnum isFile
      = dedupFirstWins ((globs.flatMap globEnum).filter (keepCandidate isFile)) := by
    rw [read_files, collectLoop_eq]
    congr 1
    refine List.filter_congr ?_
    intro q _
    simp
  refine ⟨?_, ?_, heq⟩
  · rw [List.all_eq_true]
    intro p hp
    rw [heq, mem_dedupFirstWins] at hp
    have hk := (List.mem_filter.mp hp).2
    simpa [keepCandidate] using hk
  · rw [heq]
    exact nodup_dedupFirstWins _

/-! ## C6: decoder tolerance -/

theorem exists_cons_of_head? {l : List Char} {a : Char} (h : l.head? = some a) :
    ∃ t, l = a :: t := by
  cases l with
  | nil => cases h
  | cons x xs =>
    injection h with h2
    exact ⟨xs, by rw [h2]⟩

theorem dropWhile_append_all {p : Char → Bool} :
    ∀ (a b : List Char), (∀ c ∈ a, p c = true) →
      (a ++ b).dropWhile p = b.dropWhile p := by
  intro a
  induction a with
  | nil => intro b _; rfl
  | cons c t ih =>
    intro b h
    have hc : p c = true := h c (List.mem_cons_self c t)
    rw [List.cons_append, List.dropWhile_cons_of_pos hc]
    exact ih b (fun x hx => h x (List.mem_cons_of_mem c hx))

theorem dropWhile_append_stop {p : Char → Bool} {d : Char} :
    ∀ (a b : List Char), b.head? = some d → p d = false →
      (a ++ b).dropWhile p = a.dropWhile p ++ b := by
  intro a
  induction a with
  | nil =>
    intro b hb hd
    obtain ⟨t, rfl⟩ := exists_cons_of_head? hb
    rw [List.nil_append, List.dropWhile_nil, List.nil_append]
    exact List.dropWhile_cons_of_neg (by simp [hd])
  | cons c t ih =>
    intro b hb hd
    by_cases hc : p c = true
    · rw [List.cons_append, List.dropWhile_cons_of_pos hc,
        List.dropWhile_cons_of_pos hc]
      exact ih b hb hd
    · rw [List.cons_append, List.dropWhile_cons_of_neg hc,
        List.dropWhile_cons_of_neg hc, List.cons_append]

theorem pystrip_eq_self {l : List Char} {a b : Char}
    (hh : l.head? = some a) (ha : isWS a = false)
    (hl : l.getLast? = some b) (hb : isWS b = false) :
    pystrip l = l := by
  obtain ⟨t, rfl⟩ := exists_cons_of_head? hh
  have h1 : (a :: t).dropWhile isWS = a :: t :=
    List.dropWhile_cons_of_neg (by simp [ha])
  rw [pystrip, h1]
  have hrh : (a :: t).reverse.head? = some b := by
    rw [List.head?_reverse]
    exact hl
  obtain ⟨u, hu⟩ := exists_cons_of_head? hrh
  rw [hu, List.dropWhile_cons_of_neg (by simp [hb]), ← hu, List.reverse_reverse]

theorem pystrip_append (pre j post : List Char)
    (hh : j.head? = some '{') (hl : j.getLast? = some '}') :
    pystrip (pre ++ (j ++ post))
      = pre.dropWhile isWS ++ (j ++ (post.reverse.dropWhile isWS).reverse) := by
  have hjh : (j ++ post).head? = some '{' := by
    obtain ⟨t, rfl⟩ := exists_cons_of_head? hh
    rfl
  have h1 : (pre ++ (j ++ post)).dropWhile isWS
      = pre.dropWhile isWS ++ (j ++ post) :=
    dropWhile_append_stop pre (j ++ post) hjh rfl
  have hjr : j.reverse.head? = some '}' := by
    rw [List.head?_reverse]
    exact hl
  have hjrh : (j.reverse ++ (pre.dropWhile isWS).reverse).head? = some '}' := by
    obtain ⟨u, hu⟩ := exists_cons_of_head? hjr
    rw [hu]
    rfl
  have h2 : (post.reverse ++ (j.reverse ++ (pre.dropWhile isWS).reverse)).dropWhile isWS
      = post.reverse.dropWhile isWS ++ (j.reverse ++ (pre.dropWhile isWS).reverse) :=
    dropWhile_append_stop post.reverse _ hjrh rfl
  rw [pystrip, h1]
  rw [show (pre.dropWhile isWS ++ (j ++ post)).reverse
      = post.reverse ++ (j.reverse ++ (pre.dropWhile isWS).reverse) by
    simp [List.reverse_append]]
  rw [h2]
  simp [List.reverse_append, List.reverse_reverse, List.append_assoc]

theorem extract_braces_append (a j b : List Char)
    (ha : ∀ c ∈ a, c ≠ '{') (hb : ∀ c ∈ b, c ≠ '}')
    (hh : j.head? = some '{') (hl : j.getLast? = some '}') :
    extract_braces (a ++ (j ++ b)) = some j := by
  obtain ⟨t, hjt⟩ := exists_cons_of_head? hh
  have h1 : (a ++ (j ++ b)).dropWhile (fun c => c != '{') = j ++ b := by
    rw [dropWhile_append_all a (j ++ b) (fun c hc => by simpa using ha c hc), hjt,
      List.cons_append]
    exact List.dropWhile_cons_of_neg (by simp)
  have hjr : j.reverse.head? = some '}' := by
    rw [List.head?_reverse]
    exact hl
  obtain ⟨u, hu⟩ := exists_cons_of_head? hjr
  have h2 : (j ++ b).reverse.dropWhile (fun c => c != '}') = j.reverse := by
    rw [List.reverse_append]
    rw [dropWhile_append_all b.reverse j.reverse (fun c hc => by
      have hcb : c ∈ b := List.mem_reverse.mp hc
      simpa using hb c hcb)]
    rw [hu]
    exact List.dropWhile_cons_of_neg (by simp)
  rw [extract_braces, h1, h2, List.reverse_reverse, hjt]
  rfl

theorem dictHasKey_of_dictGet {kvs : List (List Char × JValue)} {k : List Char}
    {v : JValue} (h : dictGet kvs k = some v) : dictHasKey kvs k = true := by
  unfold dictGet at h
  cases hf : kvs.find? (fun kv => kv.1 = k) with
  | none => rw [hf] at h; cases h
  | some kv =>
    have hm := List.mem_of_find?_eq_some hf
    have hp := List.find?_some hf
    rw [dictHasKey, List.any_eq_true]
    exact ⟨kv, hm, hp⟩

/-- C6, counterexample.  Wrapping the valid object in the brace-free
prose "[" before and "]" after turns the whole response into one valid
JSON document (a list), so the strict parse succeeds with a non-dict
value and the decoder reports a failure with zero changes — while the
bare object decodes to one change.  The claim's conclusion (identical
change lists) fails for this prose. -/
theorem c6_counterexample :
    (∀ c ∈ ("[").toList, c ≠ '{' ∧ c ≠ '}') ∧
    (∀ c ∈ ("]").toList, c ≠ '{' ∧ c ≠ '}') ∧
    rawWrapped = ("[").toList ++ (rawBare ++ ("]").toList) ∧
    decode_changes rawBare
      = DecodeOutcome.ok
          [mkChange (("docs/readme.md").toList) (("Hello world").toList)] ∧
    decode_changes rawWrapped = DecodeOutcome.failure (parseFailMsg rawWrapped) :=
  ⟨by decide, by decide, by simp [rawWrapped, List.append_assoc], rfl, rfl⟩

/-- C6, amended: the decoder extracts the embedded object's changes
identically to the bare object whenever the surrounding prose is
brace-free AND the wrapped response as a whole is not itself a single
valid JSON document (strict parse of the stripped wrapped response
fails): then the greedy first-brace-to-last-brace extraction recovers
exactly the object.  Without that proviso the claim fails
(`c6_counterexample`). -/
theorem c6_decoder_tolerance (pre j post : List Char)
    (kvs : List (List Char × JValue)) (xs : List JValue)
    (hpre : ∀ c ∈ pre, c ≠ '{' ∧ c ≠ '}')
    (hpost : ∀ c ∈ post, c ≠ '{' ∧ c ≠ '}')
    (hj : json_loads j = some (JValue.obj kvs))
    (hget : dictGet kvs changesKey = some (JValue.arr xs))
    (hh : j.head? = some '{') (hl : j.getLast? = some '}')
    (hfail : json_loads (pystrip (pre ++ (j ++ post))) = none) :
    decode_changes (pre ++ (j ++ post)) = DecodeOutcome.ok xs ∧
    decode_changes j = DecodeOutcome.ok xs := by
  have hhk : dictHasKey kvs changesKey = true := dictHasKey_of_dictGet hget
  constructor
  · have hs := pystrip_append pre j post hh hl
    rw [decode_changes, hs]
    rw [hs] at hfail
    have hx : extract_braces
        (pre.dropWhile isWS ++ (j ++ (post.reverse.dropWhile isWS).reverse))
        = some j := by
      refine extract_braces_append _ _ _ ?_ ?_ hh hl
      · intro c hc
        have hcp : c ∈ pre := (List.dropWhile_sublist isWS).subset hc
        exact (hpre c hcp).1
      · intro c hc
        have hc2 : c ∈ post.reverse.dropWhile isWS := List.mem_reverse.mp hc
        have hc3 : c ∈ post.reverse := (List.dropWhile_sublist isWS).subset hc2
        exact (hpost c (List.mem_reverse.mp hc3)).2
    rw [decodeData, hfail, hx]
    simp [decodeShape, hj, hhk, hget]
  · have hs : pystrip j = j := pystrip_eq_self hh rfl hl rfl
    rw [decode_changes, hs, decodeData, hj]
    simp [decodeShape, hhk, hget]

/-- C6, witness for the amended theorem: prose before and after the
object, with the whole wrapped response not itself valid JSON. -/
theorem c6_witness :
    decode_changes (("Sure! ").toList ++ (rawBare ++ (" ok").toList))
      = DecodeOutcome.ok
          [mkChange (("docs/readme.md").toList) (("Hello world").toList)] ∧
    decode_changes rawBare
      = DecodeOutcome.ok
          [mkChange (("docs/readme.md").toList) (("Hello world").toList)] :=
  c6_decoder_tolerance (("Sure! ").toList) rawBare ((" ok").toList)
    [(changesKey,
      JValue.arr [mkChange (("docs/readme.md").toList) (("Hello world").toList)])]
    [mkChange (("docs/readme.md").toList) (("Hello world").toList)]
    (by decide) (by decide) rfl rfl rfl rfl rfl

end AIWriter
